import Mathlib

/-!
Verification of the `instance` module (src/instance.js), a shim library for the
`Object.*` static methods (`assign`, `create`, `defaults`, `defineProperty`,
`defineProperties`, `getOwnPropertyDescriptor`, `getPrototypeOf`,
`setPrototypeOf`, and the terse alias `proto`).

JavaScript values are shallowly embedded as an inductive type `JsVal`: an
object is an association list of its enumerable own properties together with
its prototype link, and a function value likewise carries its own properties
and a prototype link.  Stateful operations are rendered by explicit state
passing (an operation returns the updated target object), and fallible
operations return `Except JsErr`.  The module body runs under `'use strict'`,
so a read of an unbound identifier is a `ReferenceError` and a property write
on a primitive is a `TypeError`; machine-level details of JavaScript numbers
(floats, `NaN`) are outside the claims and numbers are modelled as integers.

The capability flags probed at module initialization are gathered in an `Env`
record (presence of native `Object.create` / `Object.getPrototypeOf` /
`Object.setPrototypeOf`, and of the `__proto__` accessor).  The operations
whose claims concern the shim's manual fallback path (`property`,
`getOwnPropertyDescriptor`) are modelled by that fallback code; the native
branches of those two simply delegate to host primitives and are noted where
relevant.
-/

namespace ObjectOps

/-- JavaScript runtime errors distinguished by the claims: `TypeError` for
invalid targets and invalid `in` operands, `ReferenceError` for reads of
unbound identifiers. -/
inductive JsErr : Type where
  | typeError : JsErr
  | referenceError : JsErr
deriving DecidableEq

/-- A JavaScript value.  `obj own proto` is an object with enumerable own
properties `own` (an insertion-ordered association list) and prototype link
`proto` (an object, a function, or `null`).  `fn own proto` is a function
value with its own properties and prototype link (only its object-like
behaviour matters to the claims, so no body is carried). -/
inductive JsVal : Type where
  | undef : JsVal
  | null : JsVal
  | bool : Bool → JsVal
  | num : Int → JsVal
  | str : String → JsVal
  | obj : List (String × JsVal) → JsVal → JsVal
  | fn : List (String × JsVal) → JsVal → JsVal

/-- Look a key up in an association list of properties. -/
def lookupAssoc : List (String × JsVal) → String → Option JsVal
  | [], _ => none
  | (k0, v) :: rest, k => if k0 = k then some v else lookupAssoc rest k

/-- Assign a key in an association list, JavaScript style: an existing key
keeps its position, a new key is appended at the end. -/
def setAssoc : List (String × JsVal) → String → JsVal → List (String × JsVal)
  | [], k, v => [(k, v)]
  | (k0, v0) :: rest, k, v =>
    if k0 = k then (k0, v) :: rest else (k0, v0) :: setAssoc rest k v

/-- JavaScript loose equality with `null` (`x == null`): true exactly for
`null` and `undefined`. -/
def isNullish : JsVal → Bool
  | .null => true
  | .undef => true
  | _ => false

/-- JavaScript truthiness (`!x` negated).  `NaN` is not modelled; the falsy
values here are `undefined`, `null`, `false`, `0`, and the empty string. -/
def truthy : JsVal → Bool
  | .undef => false
  | .null => false
  | .bool b => b
  | .num n => n != 0
  | .str s => s != ""
  | .obj _ _ => true
  | .fn _ _ => true

/-- The JavaScript `typeof` operator.  Note `typeof null` is `"object"`. -/
def typeOf : JsVal → String
  | .undef => "undefined"
  | .null => "object"
  | .bool _ => "boolean"
  | .num _ => "number"
  | .str _ => "string"
  | .obj _ _ => "object"
  | .fn _ _ => "function"

/-- The enumerable own properties of a boxed string: one single-character
string property per index, as produced by `Object("ab")`. -/
def strOwnProps (s : String) : List (String × JsVal) :=
  s.toList.enum.map (fun p => (toString p.1, JsVal.str (String.singleton p.2)))

/-- The `Object()` coercion: objects and functions pass through, `null` and
`undefined` become a fresh empty object, strings box to an object with
enumerable index properties, numbers and booleans box to wrappers with no
enumerable own properties. -/
def toObject : JsVal → JsVal
  | .null => .obj [] .null
  | .undef => .obj [] .null
  | .str s => .obj (strOwnProps s) .null
  | .num _ => .obj [] .null
  | .bool _ => .obj [] .null
  | .obj own proto => .obj own proto
  | .fn own proto => .fn own proto

/-- Drop the keys already seen, then keep the first occurrence of each
remaining key (the shadowing discipline of a `for…in` walk). -/
def dedupAux (seen : List String) : List String → List String
  | [] => []
  | k :: ks => if k ∈ seen then dedupAux seen ks else k :: dedupAux (k :: seen) ks

/-- Keep the first occurrence of each key. -/
def dedupKeys (l : List String) : List String := dedupAux [] l

/-- The keys visited by `for (var k in v)`: the enumerable own keys of `v`
followed by the not-yet-shadowed enumerable keys of its prototype chain.
A string primitive enumerates its index keys; other primitives, `null` and
`undefined` enumerate nothing. -/
def forInKeys : JsVal → List String
  | .obj own proto => dedupKeys (own.map Prod.fst ++ forInKeys proto)
  | .fn own proto => dedupKeys (own.map Prod.fst ++ forInKeys proto)
  | .str s => (strOwnProps s).map Prod.fst
  | _ => []

/-- The JavaScript `in` test on an object-like value: own key or a key
anywhere on the prototype chain. -/
def hasProp (k : String) : JsVal → Bool
  | .obj own proto => (lookupAssoc own k).isSome || hasProp k proto
  | .fn own proto => (lookupAssoc own k).isSome || hasProp k proto
  | .str s => (lookupAssoc (strOwnProps s) k).isSome
  | _ => false

/-- The `hasOwnProperty` test: own (enumerable) key only. -/
def hasOwnProperty (v : JsVal) (k : String) : Bool :=
  match v with
  | .obj own _ => (lookupAssoc own k).isSome
  | .fn own _ => (lookupAssoc own k).isSome
  | .str s => (lookupAssoc (strOwnProps s) k).isSome
  | _ => false

/-- Property read `v[k]`: own property, else the prototype chain, else
`undefined`.  Reads on non-nullish primitives box and (apart from string
indices) find nothing enumerable, yielding `undefined`. -/
def getProp (k : String) : JsVal → JsVal
  | .obj own proto =>
    match lookupAssoc own k with
    | some v => v
    | none => getProp k proto
  | .fn own proto =>
    match lookupAssoc own k with
    | some v => v
    | none => getProp k proto
  | .str s =>
    match lookupAssoc (strOwnProps s) k with
    | some v => v
    | none => .undef
  | _ => (.undef)

/-- Property read that models the `TypeError` thrown when the base value is
`null` or `undefined`. -/
def getPropE (k : String) (v : JsVal) : Except JsErr JsVal :=
  match v with
  | .null => .error .typeError
  | .undef => .error .typeError
  | _ => .ok (getProp k v)

/-- Property write `v[k] = x` under `'use strict'`: objects and functions are
updated; a write on `null`, `undefined` or a primitive throws a `TypeError`. -/
def jsSetProp (v : JsVal) (k : String) (x : JsVal) : Except JsErr JsVal :=
  match v with
  | .obj own proto => .ok (.obj (setAssoc own k x) proto)
  | .fn own proto => .ok (.fn (setAssoc own k x) proto)
  | _ => .error .typeError

/-- The enumerable own keys of a value (used to state that a freshly created
object has no own enumerable properties). -/
def ownKeys : JsVal → List String
  | .obj own _ => own.map Prod.fst
  | .fn own _ => own.map Prod.fst
  | _ => []

/-- The capability flags resolved once at module initialization: presence of
native `Object.getPrototypeOf` / `Object.setPrototypeOf` / `Object.create`,
and of the `__proto__` accessor (the `PROTO` flag of src/instance.js:41). -/
structure Env : Type where
  nativeGetProto : Bool
  nativeSetProto : Bool
  protoAccessor : Bool
  nativeCreate : Bool

/-- The model of `Object.prototype` visible to this development: it has no
enumerable properties and its prototype link is `null`. -/
def objectPrototype : JsVal := .obj [] .null

/-- The `in`-operator as an expression: applying `in` to a non-object throws
a `TypeError` (src/instance.js:249 applies it to the raw value `v`). -/
def inOp (k : String) (v : JsVal) : Except JsErr Bool :=
  match v with
  | .obj own proto => .ok (hasProp k (.obj own proto))
  | .fn own proto => .ok (hasProp k (.fn own proto))
  | _ => .error .typeError

/-- Short-circuit JavaScript `||` over boolean-valued, possibly-throwing
expressions. -/
def orE (a : Except JsErr Bool) (b : Unit → Except JsErr Bool) : Except JsErr Bool :=
  match a with
  | .error e => .error e
  | .ok true => .ok true
  | .ok false => b ()

/-- Short-circuit JavaScript `&&` over boolean-valued, possibly-throwing
expressions. -/
def andE (a : Except JsErr Bool) (b : Unit → Except JsErr Bool) : Except JsErr Bool :=
  match a with
  | .error e => .error e
  | .ok false => .ok false
  | .ok true => b ()

/-- isDescriptor (src/instance.js:248-251):
`v != null && 'value' in v || 'get' in v || 'set' in v || 'writable' in v ||
'configurable' in v || 'enumerable' in v`.
`&&` binds tighter than `||`, so only the `'value'` probe is guarded by the
null check; each later `'x' in v` throws a `TypeError` when `v` is `null`. -/
def isDescriptor (v : JsVal) : Except JsErr Bool :=
  orE (andE (.ok (!isNullish v)) (fun _ => inOp "value" v)) (fun _ =>
  orE (inOp "get" v) (fun _ =>
  orE (inOp "set" v) (fun _ =>
  orE (inOp "writable" v) (fun _ =>
  orE (inOp "configurable" v) (fun _ =>
  inOp "enumerable" v)))))

/-- A value carries at least one of the six recognized descriptor keys,
own or inherited. -/
def hasDescriptorKey (v : JsVal) : Bool :=
  hasProp "value" v || (hasProp "get" v || (hasProp "set" v ||
    (hasProp "writable" v || (hasProp "configurable" v || hasProp "enumerable" v))))

/-- property (src/instance.js:152-168), the low-level setter's fallback branch
(taken when `DP_IS_OKAY && Object.defineProperty` is falsy): reject a falsy
target, then reject a target whose `typeof` is not `"object"`, then perform
`object[name] = descriptor.value` and return the (updated) target.  The
native branch is host-provided `Object.defineProperty` and is not code of
this repository. -/
def property (object : JsVal) (name : String) (descriptor : JsVal) : Except JsErr JsVal :=
  if truthy object = false then .error .typeError
  else if typeOf object ≠ "object" then .error .typeError
  else
    match getPropE "value" descriptor with
    | .error e => .error e
    | .ok v => jsSetProp object name v

/-- defineProperty (src/instance.js:209-215): an object-typed descriptor that
passes `isDescriptor` is applied in full; any other value is wrapped as the
data descriptor `{value: descriptor}`.  An exception raised by `isDescriptor`
(the `null` case) propagates. -/
def defineProperty (object : JsVal) (name : String) (descriptor : JsVal) : Except JsErr JsVal :=
  if typeOf descriptor = "object" then
    match isDescriptor descriptor with
    | .error e => .error e
    | .ok true => property object name descriptor
    | .ok false => property object name (.obj [("value", descriptor)] .null)
  else
    property object name (.obj [("value", descriptor)] .null)

/-- The loop of defineProperties: `for (var name in descriptors)
defineProperty(object, name, descriptors[name])`. -/
def definePropertiesLoop (descriptors : JsVal) (object : JsVal) :
    List String → Except JsErr JsVal
  | [] => .ok object
  | name :: rest =>
    match defineProperty object name (getProp name descriptors) with
    | .error e => .error e
    | .ok o => definePropertiesLoop descriptors o rest

/-- defineProperties (src/instance.js:183-189): defines every `for…in` key of
`descriptors` on `object`, in enumeration order, and returns the target. -/
def defineProperties (object : JsVal) (descriptors : JsVal) : Except JsErr JsVal :=
  definePropertiesLoop descriptors object (forInKeys descriptors)

/-- getOwnPropertyDescriptor (src/instance.js:227-235), fallback branch: when
the target owns `name`, a minimal data descriptor `{value: object[name]}`;
otherwise the implicit `undefined` return.  Calling any method on a nullish
target throws.  The native branch delegates to the host primitive. -/
def getOwnPropertyDescriptor (object : JsVal) (name : String) : Except JsErr JsVal :=
  match object with
  | .null => .error .typeError
  | .undef => .error .typeError
  | _ =>
    if hasOwnProperty object name then
      .ok (.obj [("value", getProp name object)] .null)
    else
      .ok (.undef)

/-- The inner loop of the assign fallback over one source: for each `for…in`
key of the boxed source, copy it onto the target when it is an own key of the
source (`if (source.hasOwnProperty(property)) object[property] =
source[property]`, src/instance.js:80-84). -/
def copyLoop (src : JsVal) (target : JsVal) : List String → Except JsErr JsVal
  | [] => .ok target
  | k :: ks =>
    if hasOwnProperty src k = true then
      match jsSetProp target k (getProp k src) with
      | .error e => .error e
      | .ok t => copyLoop src t ks
    else copyLoop src target ks

/-- Process one source of the assign fallback: box it with `Object()` and run
the copy loop over its `for…in` keys. -/
def assignSource (target source : JsVal) : Except JsErr JsVal :=
  copyLoop (toObject source) target (forInKeys (toObject source))

/-- The outer loop of the assign fallback over the sources, left to right. -/
def assignLoop (target : JsVal) : List JsVal → Except JsErr JsVal
  | [] => .ok target
  | s :: rest =>
    match assignSource target s with
    | .error e => .error e
    | .ok t => assignLoop t rest

/-- assign (src/instance.js:68-88), fallback branch: throw a `TypeError` on a
nullish target before touching any source, otherwise copy each source's own
enumerable properties onto the target left to right and return
`output = Object(object)` — for an object target the very target reference,
so the final state threaded through the loop.  (The native branch is host
`Object.assign`, which likewise rejects nullish targets and copies own
enumerable properties only.) -/
def assign (object : JsVal) (sources : List JsVal) : Except JsErr JsVal :=
  if isNullish object = true then .error .typeError
  else
    match assignLoop object sources with
    | .error e => .error e
    | .ok final => .ok (toObject final)

/-- The loop of defaults (src/instance.js:139-147).  Its body is
`if (target[key] === undefined) target[key] = source[key];` where `target` is
an unbound identifier (the parameter is named `object`), so under the
module's `'use strict'` the first enumerated key of any source raises a
`ReferenceError`; a source without `for…in` keys is skipped harmlessly. -/
def defaultsLoop : List JsVal → Except JsErr Unit
  | [] => .ok ()
  | s :: rest =>
    match forInKeys s with
    | [] => defaultsLoop rest
    | _ :: _ => .error .referenceError

/-- defaults (src/instance.js:130-150): throw a `TypeError` on a nullish
target, then run the (broken) copy loop over the raw sources, and return
`output = Object(object)` when no loop body ever executed. -/
def defaults (object : JsVal) (sources : List JsVal) : Except JsErr JsVal :=
  if isNullish object = true then .error .typeError
  else
    match defaultsLoop sources with
    | .error e => .error e
    | .ok _ => .ok (toObject object)

/-- The object-construction step of create (src/instance.js:104-110): with
native `Object.create`, a fresh object whose prototype link is `prototype`
(a `TypeError` for a primitive, non-null prototype); otherwise the
bridging-constructor path `PrototypalIntermediate.prototype = prototype;
new PrototypalIntermediate()`, which links to `prototype` when it is
object-like and silently falls back to `Object.prototype` when it is not
(the `new F()` rule for a non-object `F.prototype`). -/
def createRaw (env : Env) (prototype : JsVal) : Except JsErr JsVal :=
  if env.nativeCreate then
    match prototype with
    | .obj own proto => .ok (.obj [] (.obj own proto))
    | .fn own proto => .ok (.obj [] (.fn own proto))
    | .null => .ok (.obj [] .null)
    | _ => .error .typeError
  else
    match prototype with
    | .obj own proto => .ok (.obj [] (.obj own proto))
    | .fn own proto => .ok (.obj [] (.fn own proto))
    | _ => .ok (.obj [] objectPrototype)

/-- create (src/instance.js:103-117): build the fresh object, then apply a
truthy `descriptors` argument through `defineProperties` before returning. -/
def create (env : Env) (prototype : JsVal) (descriptors : JsVal) : Except JsErr JsVal :=
  match createRaw env prototype with
  | .error e => .error e
  | .ok object =>
    if truthy descriptors then defineProperties object descriptors
    else .ok object

/-- getPrototypeOf (src/instance.js:283-289): native `Object.getPrototypeOf`
or a `__proto__` read both report the actual prototype link (and throw a
`TypeError` on a nullish target; primitive targets are outside the claims
and also rejected here, matching the ES5 native).  The last-resort branch
reads `object.constructor.prototype`, which is only an approximation. -/
def getPrototypeOf (env : Env) (object : JsVal) : Except JsErr JsVal :=
  if env.nativeGetProto || env.protoAccessor then
    match object with
    | .obj _ proto => .ok proto
    | .fn _ proto => .ok proto
    | _ => .error .typeError
  else
    match getPropE "constructor" object with
    | .error e => .error e
    | .ok ctor => getPropE "prototype" ctor

/-- setPrototypeOf (src/instance.js:301-307), returning the pair (updated
target, JavaScript return value).  The native setter updates the link and
returns the target; the `__proto__` branch updates the link and the
assignment expression evaluates to `prototype`.  The last-resort branch
(src/instance.js:305-307) names its parameter `prototypt` but assigns
`object.constructor.prototype = prototype`: under `'use strict'` the read of
the unbound identifier `prototype` raises a `ReferenceError` on every call,
so that branch never assigns anything. -/
def setPrototypeOf (env : Env) (object prototype : JsVal) :
    Except JsErr (JsVal × JsVal) :=
  if env.nativeSetProto then
    match object with
    | .obj own _ => .ok (.obj own prototype, .obj own prototype)
    | .fn own _ => .ok (.fn own prototype, .fn own prototype)
    | .null => .error .typeError
    | .undef => .error .typeError
    | v => .ok (v, v)
  else if env.protoAccessor then
    match object with
    | .obj own _ => .ok (.obj own prototype, prototype)
    | .fn own _ => .ok (.fn own prototype, prototype)
    | .null => .error .typeError
    | .undef => .error .typeError
    | v => .ok (v, prototype)
  else
    .error .referenceError

/-- proto (src/instance.js:335-341), the terse get/set alias, with the actual
argument list of the call modelled by `args`.  The source dispatches on
`agruments.length` — a misspelling of `arguments` — so evaluating the
condition raises a `ReferenceError` on every call, before either
`setPrototypeOf` or `getPrototypeOf` can be reached. -/
def proto (_env : Env) (_args : List JsVal) : Except JsErr JsVal :=
  .error .referenceError

/-! ### Specification-side definitions

Definitions used to state the claims, derived from the behaviour the claims
describe rather than from a single source line. -/

/-- The value the fallback path actually stores when `defineProperty` is
given a third argument `v`: the member `v.value` when `v` is applied as a
full descriptor (object-typed with a recognized key), `v` itself when it is
wrapped as the shorthand `{value: v}`. -/
def resolvedValue (v : JsVal) : JsVal :=
  if typeOf v = "object" ∧ hasDescriptorKey v = true then getProp "value" v else v

/-- The pure shape of the assign copy loop over one boxed source: fold the
key list, assigning each own key of `src` into the accumulator. -/
def copyKeys (src : JsVal) : List (String × JsVal) → List String → List (String × JsVal)
  | a, [] => a
  | a, k :: ks =>
    if hasOwnProperty src k = true then copyKeys src (setAssoc a k (getProp k src)) ks
    else copyKeys src a ks

/-- The value a key ends up with after an assign pass: the own value of the
last (rightmost) source that owns the key, if any source does. -/
def lastSourceValue : List JsVal → String → Option JsVal
  | [], _ => none
  | s :: rest, k =>
    match lastSourceValue rest k with
    | some v => some v
    | none =>
      if hasOwnProperty (toObject s) k = true then some (getProp k (toObject s)) else none

/-! ### Helper lemmas -/

theorem lookup_setAssoc_self (l : List (String × JsVal)) (k : String) (v : JsVal) :
    lookupAssoc (setAssoc l k v) k = some v := by
  induction l with
  | nil => simp [setAssoc, lookupAssoc]
  | cons hd tl ih =>
    obtain ⟨k0, v0⟩ := hd
    by_cases h : k0 = k
    · simp [setAssoc, lookupAssoc, h]
    · simp [setAssoc, lookupAssoc, h, ih]

theorem lookup_setAssoc_ne (l : List (String × JsVal)) (k k2 : String) (v : JsVal)
    (h : k2 ≠ k) : lookupAssoc (setAssoc l k v) k2 = lookupAssoc l k2 := by
  induction l with
  | nil => simp [setAssoc, lookupAssoc, Ne.symm h]
  | cons hd tl ih =>
    obtain ⟨k0, v0⟩ := hd
    by_cases h0 : k0 = k
    · subst h0
      simp [setAssoc, lookupAssoc, Ne.symm h]
    · simp [setAssoc, lookupAssoc, h0, ih]

theorem mem_dedupAux (l : List String) : ∀ (seen : List String) (k : String),
    k ∈ dedupAux seen l ↔ (k ∈ l ∧ k ∉ seen) := by
  induction l with
  | nil => intro seen k; simp [dedupAux]
  | cons a t ih =>
    intro seen k
    by_cases ha : a ∈ seen <;> by_cases hka : k = a
    · subst hka
      simp [dedupAux, ha, ih]
    · simp [dedupAux, ha, ih, List.mem_cons, hka]
    · subst hka
      simp [dedupAux, ha, ih, List.mem_cons]
    · simp [dedupAux, ha, ih, List.mem_cons, hka]

theorem mem_dedupKeys (l : List String) (k : String) : k ∈ dedupKeys l ↔ k ∈ l := by
  unfold dedupKeys
  rw [mem_dedupAux]
  simp

theorem lookup_isSome_mem (l : List (String × JsVal)) (k : String)
    (h : (lookupAssoc l k).isSome = true) : k ∈ l.map Prod.fst := by
  induction l with
  | nil => simp [lookupAssoc] at h
  | cons hd tl ih =>
    obtain ⟨k0, v0⟩ := hd
    by_cases hk : k0 = k
    · subst hk
      simp
    · simp only [lookupAssoc, if_neg hk] at h
      simp [ih h]

theorem hasOwn_mem_forInKeys (v : JsVal) (k : String)
    (h : hasOwnProperty v k = true) : k ∈ forInKeys v := by
  cases v with
  | obj own p =>
    exact (mem_dedupKeys _ _).mpr (List.mem_append.mpr (Or.inl (lookup_isSome_mem own k h)))
  | fn own p =>
    exact (mem_dedupKeys _ _).mpr (List.mem_append.mpr (Or.inl (lookup_isSome_mem own k h)))
  | str s => exact lookup_isSome_mem _ k h
  | undef => simp [hasOwnProperty] at h
  | null => simp [hasOwnProperty] at h
  | bool b => simp [hasOwnProperty] at h
  | num n => simp [hasOwnProperty] at h

theorem copyLoop_obj (src : JsVal) (K : List String) :
    ∀ (a : List (String × JsVal)) (p : JsVal),
    copyLoop src (.obj a p) K = .ok (.obj (copyKeys src a K) p) := by
  induction K with
  | nil => intro a p; rfl
  | cons k ks ih =>
    intro a p
    by_cases h : hasOwnProperty src k = true
    · simp [copyLoop, copyKeys, h, jsSetProp, ih]
    · simp [copyLoop, copyKeys, h, ih]

theorem lookup_copyKeys (src : JsVal) (K : List String) :
    ∀ (a : List (String × JsVal)) (k : String),
    lookupAssoc (copyKeys src a K) k =
      if k ∈ K ∧ hasOwnProperty src k = true then some (getProp k src)
      else lookupAssoc a k := by
  induction K with
  | nil => intro a k; simp [copyKeys]
  | cons k0 ks ih =>
    intro a k
    by_cases hk0 : hasOwnProperty src k0 = true
    · rw [show copyKeys src a (k0 :: ks) = copyKeys src (setAssoc a k0 (getProp k0 src)) ks
        from by simp [copyKeys, hk0]]
      rw [ih]
      by_cases hmem : k ∈ ks ∧ hasOwnProperty src k = true
      · rw [if_pos hmem, if_pos ⟨List.mem_cons_of_mem _ hmem.1, hmem.2⟩]
      · rw [if_neg hmem]
        by_cases hkk : k = k0
        · subst hkk
          rw [lookup_setAssoc_self, if_pos ⟨List.mem_cons_self _ _, hk0⟩]
        · rw [lookup_setAssoc_ne _ _ _ _ hkk, if_neg ?_]
          rintro ⟨hm, ho⟩
          rcases List.mem_cons.mp hm with rfl | h2
          · exact hkk rfl
          · exact hmem ⟨h2, ho⟩
    · rw [show copyKeys src a (k0 :: ks) = copyKeys src a ks from by simp [copyKeys, hk0]]
      rw [ih]
      by_cases hmem : k ∈ ks ∧ hasOwnProperty src k = true
      · rw [if_pos hmem, if_pos ⟨List.mem_cons_of_mem _ hmem.1, hmem.2⟩]
      · rw [if_neg hmem, if_neg ?_]
        rintro ⟨hm, ho⟩
        rcases List.mem_cons.mp hm with rfl | h2
        · exact hk0 ho
        · exact hmem ⟨h2, ho⟩

theorem assignSource_obj (a : List (String × JsVal)) (p : JsVal) (s : JsVal) :
    assignSource (.obj a p) s =
      .ok (.obj (copyKeys (toObject s) a (forInKeys (toObject s))) p) :=
  copyLoop_obj _ _ a p

theorem lookup_copyOwn (s : JsVal) (a : List (String × JsVal)) (k : String) :
    lookupAssoc (copyKeys (toObject s) a (forInKeys (toObject s))) k =
      if hasOwnProperty (toObject s) k = true then some (getProp k (toObject s))
      else lookupAssoc a k := by
  rw [lookup_copyKeys]
  by_cases h : hasOwnProperty (toObject s) k = true
  · rw [if_pos ⟨hasOwn_mem_forInKeys _ _ h, h⟩, if_pos h]
  · rw [if_neg (fun hc => h hc.2), if_neg h]

theorem assignLoop_obj (sources : List JsVal) :
    ∀ (a : List (String × JsVal)) (p : JsVal), ∃ a2,
    assignLoop (.obj a p) sources = .ok (.obj a2 p) ∧
    ∀ k, lookupAssoc a2 k =
      match lastSourceValue sources k with
      | some v => some v
      | none => lookupAssoc a k := by
  induction sources with
  | nil =>
    intro a p
    exact ⟨a, rfl, fun k => by simp [lastSourceValue]⟩
  | cons s rest ih =>
    intro a p
    obtain ⟨a2, h1, h2⟩ := ih (copyKeys (toObject s) a (forInKeys (toObject s))) p
    refine ⟨a2, ?_, ?_⟩
    · rw [show assignLoop (.obj a p) (s :: rest) =
        (match assignSource (.obj a p) s with
         | .error e => .error e
         | .ok t => assignLoop t rest) from rfl]
      rw [assignSource_obj]
      exact h1
    · intro k
      rw [h2 k]
      cases hrest : lastSourceValue rest k with
      | some v => simp [lastSourceValue, hrest]
      | none =>
        simp only [lastSourceValue, hrest]
        rw [lookup_copyOwn]
        by_cases h : hasOwnProperty (toObject s) k = true
        · simp [h]
        · simp [h]

theorem isDescriptor_obj (own : List (String × JsVal)) (p : JsVal) :
    isDescriptor (.obj own p) = .ok (hasDescriptorKey (.obj own p)) := by
  unfold isDescriptor hasDescriptorKey
  cases h1 : hasProp "value" (JsVal.obj own p) <;>
  cases h2 : hasProp "get" (JsVal.obj own p) <;>
  cases h3 : hasProp "set" (JsVal.obj own p) <;>
  cases h4 : hasProp "writable" (JsVal.obj own p) <;>
  cases h5 : hasProp "configurable" (JsVal.obj own p) <;>
  cases h6 : hasProp "enumerable" (JsVal.obj own p) <;>
  simp [orE, andE, inOp, isNullish, h1, h2, h3, h4, h5, h6]

theorem gOPD_after_set (town : List (String × JsVal)) (tproto : JsVal)
    (name : String) (w : JsVal) :
    getOwnPropertyDescriptor (.obj (setAssoc town name w) tproto) name =
      .ok (.obj [("value", w)] .null) := by
  have hl := lookup_setAssoc_self town name w
  simp [getOwnPropertyDescriptor, hasOwnProperty, getProp, hl]

/-! ### Claim theorems -/

/-- C3: `assign(null, {a:1})` and `assign(undefined, {a:1})` — and in fact
those targets with any source list whatsoever — fail with a
`TypeError`-equivalent before any source is read; since the error is raised
first, on failure no object is produced and no write has happened. -/
theorem assign_invalid_target_type_error :
    (∀ sources : List JsVal, assign .null sources = .error .typeError)
  ∧ (∀ sources : List JsVal, assign .undef sources = .error .typeError) :=
  ⟨fun _ => rfl, fun _ => rfl⟩

/-- C2 (code bug): the spec scenario `defaults({a: 1}, {a: 2, b: 2})` does not
yield `{a: 1, b: 2}`; the loop body reads the unbound identifier `target`, so
the call throws a `ReferenceError`-equivalent at the first enumerated key. -/
theorem defaults_scenario_reference_error :
    defaults (JsVal.obj [("a", JsVal.num 1)] .null)
      [JsVal.obj [("a", JsVal.num 2), ("b", JsVal.num 2)] .null] =
      .error .referenceError := rfl

/-- C9 (code bug): every call of the `proto` alias — the 2-argument set form
and the 1-argument get form alike — throws a `ReferenceError`-equivalent,
because the arity test reads the misspelled identifier `agruments`; it never
dispatches to `setPrototypeOf` or `getPrototypeOf`. -/
theorem proto_always_reference_error :
    (proto ⟨true, true, true, true⟩ [JsVal.obj [] .null, JsVal.obj [("p", JsVal.num 1)] .null] =
      .error .referenceError)
  ∧ (proto ⟨true, true, true, true⟩ [JsVal.obj [] .null] = .error .referenceError) :=
  ⟨rfl, rfl⟩

/-- C8 (code bug): on the last-resort branch (no native setter, no
`__proto__`) `setPrototypeOf` throws a `ReferenceError`-equivalent — the
parameter is misspelled `prototypt`, so the assignment reads an unbound
`prototype` — even on a target with a perfectly good `constructor`; it never
assigns through `target.constructor.prototype`.  On the `__proto__` branch,
by contrast, setting twice with the same `P` is idempotent and
`getPrototypeOf` then reports `P`. -/
theorem setPrototypeOf_branches_eval :
    (setPrototypeOf ⟨false, false, false, false⟩
       (JsVal.obj [("constructor", JsVal.fn [("prototype", objectPrototype)] .null)] .null)
       (JsVal.obj [] .null) = .error .referenceError)
  ∧ (setPrototypeOf ⟨false, false, true, false⟩ (JsVal.obj [("a", JsVal.num 1)] .null)
       (JsVal.obj [("p", JsVal.num 2)] .null) =
       .ok (JsVal.obj [("a", JsVal.num 1)] (JsVal.obj [("p", JsVal.num 2)] .null),
            JsVal.obj [("p", JsVal.num 2)] .null))
  ∧ (setPrototypeOf ⟨false, false, true, false⟩
       (JsVal.obj [("a", JsVal.num 1)] (JsVal.obj [("p", JsVal.num 2)] .null))
       (JsVal.obj [("p", JsVal.num 2)] .null) =
       .ok (JsVal.obj [("a", JsVal.num 1)] (JsVal.obj [("p", JsVal.num 2)] .null),
            JsVal.obj [("p", JsVal.num 2)] .null))
  ∧ (getPrototypeOf ⟨false, false, true, false⟩
       (JsVal.obj [("a", JsVal.num 1)] (JsVal.obj [("p", JsVal.num 2)] .null)) =
       .ok (JsVal.obj [("p", JsVal.num 2)] .null)) :=
  ⟨rfl, rfl, rfl, rfl⟩

/-- C7: the fallback low-level setter rejects every falsy target with a
`TypeError`-equivalent, rejects every truthy target whose `typeof` is not
`"object"` (functions included), and on an object target assigns
`descriptor.value` onto `target[name]` and returns the target; purity of the
model makes the fail-fast explicit — an error result carries no updated
object. -/
theorem property_fallback_spec :
    (∀ (object : JsVal) (name : String) (descriptor : JsVal),
      truthy object = false → property object name descriptor = .error .typeError)
  ∧ (∀ (object : JsVal) (name : String) (descriptor : JsVal),
      truthy object = true → typeOf object ≠ "object" →
      property object name descriptor = .error .typeError)
  ∧ (∀ (town : List (String × JsVal)) (tproto : JsVal) (name : String)
        (down : List (String × JsVal)) (dproto : JsVal),
      property (.obj town tproto) name (.obj down dproto) =
        .ok (.obj (setAssoc town name (getProp "value" (.obj down dproto))) tproto)) := by
  refine ⟨?_, ?_, ?_⟩
  · intro object name descriptor h
    simp [property, h]
  · intro object name descriptor h1 h2
    simp [property, h1, h2]
  · intro town tproto name down dproto
    rfl

/-- C7 witness: the three cases of `property_fallback_spec` at concrete
inputs — a nullish target, a function target, and an object target. -/
theorem property_fallback_spec_witness :
    (property .null "k" (JsVal.obj [("value", JsVal.num 5)] .null) = .error .typeError)
  ∧ (property (JsVal.fn [] .null) "k" (JsVal.obj [("value", JsVal.num 5)] .null) =
      .error .typeError)
  ∧ (property (JsVal.obj [] .null) "k" (JsVal.obj [("value", JsVal.num 7)] .null) =
      .ok (JsVal.obj [("k", JsVal.num 7)] .null)) :=
  ⟨property_fallback_spec.1 .null "k" (JsVal.obj [("value", JsVal.num 5)] .null) rfl,
   property_fallback_spec.2.1 (JsVal.fn [] .null) "k"
     (JsVal.obj [("value", JsVal.num 5)] .null) rfl (by decide),
   property_fallback_spec.2.2 [] .null "k" [("value", JsVal.num 7)] .null⟩

/-- C10: a function-typed third argument is always treated as the shorthand
`{value: f}` — `typeof f` is `"function"`, not `"object"`, so the descriptor
probe is never consulted — no matter which own or inherited properties
(`value`, `get`, … included) the function carries; on an object target the
property is defined with the function itself as its value. -/
theorem defineProperty_function_descriptor_shorthand :
    (∀ (object : JsVal) (name : String) (fown : List (String × JsVal)) (fproto : JsVal),
      defineProperty object name (.fn fown fproto) =
        property object name (.obj [("value", .fn fown fproto)] .null))
  ∧ (∀ (town : List (String × JsVal)) (tproto : JsVal) (name : String)
        (fown : List (String × JsVal)) (fproto : JsVal),
      defineProperty (.obj town tproto) name (.fn fown fproto) =
        .ok (.obj (setAssoc town name (.fn fown fproto)) tproto)) :=
  ⟨fun _ _ _ _ => rfl, fun _ _ _ _ _ => rfl⟩

/-- C1 counterexample: `"b"` is an enumerable (inherited) `for…in` key of the
source, yet `assign({}, source)` returns the target unchanged — the claim
demands that every enumerable key of a source, own or inherited, end up on
the target, here with value `2`, but reading `"b"` off the result still
yields `undefined`. -/
theorem assign_inherited_enumerable_not_copied :
    (forInKeys (JsVal.obj [] (JsVal.obj [("b", JsVal.num 2)] .null)) = ["b"])
  ∧ (assign (JsVal.obj [] .null) [JsVal.obj [] (JsVal.obj [("b", JsVal.num 2)] .null)] =
      .ok (JsVal.obj [] .null))
  ∧ (getProp "b" (JsVal.obj [] .null) = JsVal.undef) :=
  ⟨rfl, rfl, rfl⟩

/-- C4 counterexample: `null` is object-typed and carries none of the
recognized keys, so the claim says it is treated as the shorthand
`{value: null}` — which would succeed and define the property — but
`defineProperty` instead throws a `TypeError`-equivalent, because
`isDescriptor` evaluates `'get' in null`. -/
theorem defineProperty_null_descriptor_cex :
    (defineProperty (JsVal.obj [] .null) "k" .null = .error .typeError)
  ∧ (property (JsVal.obj [] .null) "k" (JsVal.obj [("value", JsVal.null)] .null) =
      .ok (JsVal.obj [("k", JsVal.null)] .null)) :=
  ⟨rfl, rfl⟩

/-- C5 counterexample: with `v = {value: 5}` the call
`defineProperty(target, "k", v)` succeeds, but the descriptor reported by
`getOwnPropertyDescriptor` has `.value` equal to `5`, not to `v` itself, so
the claimed `.value === v` fails on the fallback path (the native path
reports the same `.value`). -/
theorem roundtrip_value_field_cex :
    (defineProperty (JsVal.obj [] .null) "k" (JsVal.obj [("value", JsVal.num 5)] .null) =
      .ok (JsVal.obj [("k", JsVal.num 5)] .null))
  ∧ (getOwnPropertyDescriptor (JsVal.obj [("k", JsVal.num 5)] .null) "k" =
      .ok (JsVal.obj [("value", JsVal.num 5)] .null))
  ∧ (getProp "value" (JsVal.obj [("value", JsVal.num 5)] .null) = JsVal.num 5)
  ∧ (JsVal.num 5 ≠ JsVal.obj [("value", JsVal.num 5)] .null) :=
  ⟨rfl, rfl, rfl, by intro h; exact JsVal.noConfusion h⟩

/-- C4 (amended): a non-null object-typed third argument with at least one of
the recognized keys `value`, `get`, `set`, `writable`, `configurable`,
`enumerable` (own or inherited) is applied as a full descriptor; a value
whose `typeof` is not `"object"`, and a non-null object-typed value with none
of those keys, is treated as the shorthand `{value: d}`; the remaining
object-typed value, `null` itself, makes the descriptor probe apply `in` to
`null` and a `TypeError`-equivalent is raised instead. -/
theorem defineProperty_dispatch (object : JsVal) (name : String) :
    (∀ d : JsVal, typeOf d ≠ "object" →
      defineProperty object name d = property object name (.obj [("value", d)] .null))
  ∧ (∀ (down : List (String × JsVal)) (dproto : JsVal),
      hasDescriptorKey (.obj down dproto) = true →
      defineProperty object name (.obj down dproto) =
        property object name (.obj down dproto))
  ∧ (∀ (down : List (String × JsVal)) (dproto : JsVal),
      hasDescriptorKey (.obj down dproto) = false →
      defineProperty object name (.obj down dproto) =
        property object name (.obj [("value", .obj down dproto)] .null))
  ∧ (defineProperty object name .null = .error .typeError) := by
  refine ⟨?_, ?_, ?_, rfl⟩
  · intro d h
    simp [defineProperty, h]
  · intro down dproto h
    simp [defineProperty, typeOf, isDescriptor_obj, h]
  · intro down dproto h
    simp [defineProperty, typeOf, isDescriptor_obj, h]

/-- C4 witness: the dispatch at concrete inputs — a number is wrapped as
shorthand, `{enumerable: false}` is applied as a full descriptor, `{a: 1}`
(no recognized key) is wrapped as shorthand, and `null` raises. -/
theorem defineProperty_dispatch_witness :
    (defineProperty (JsVal.obj [] .null) "k" (JsVal.num 5) =
      property (JsVal.obj [] .null) "k" (JsVal.obj [("value", JsVal.num 5)] .null))
  ∧ (defineProperty (JsVal.obj [] .null) "k"
        (JsVal.obj [("enumerable", JsVal.bool false)] .null) =
      property (JsVal.obj [] .null) "k"
        (JsVal.obj [("enumerable", JsVal.bool false)] .null))
  ∧ (defineProperty (JsVal.obj [] .null) "k" (JsVal.obj [("a", JsVal.num 1)] .null) =
      property (JsVal.obj [] .null) "k"
        (JsVal.obj [("value", JsVal.obj [("a", JsVal.num 1)] .null)] .null))
  ∧ (defineProperty (JsVal.obj [] .null) "k" .null = .error .typeError) :=
  ⟨(defineProperty_dispatch (JsVal.obj [] .null) "k").1 (JsVal.num 5) (by decide),
   (defineProperty_dispatch (JsVal.obj [] .null) "k").2.1
     [("enumerable", JsVal.bool false)] .null (by decide),
   (defineProperty_dispatch (JsVal.obj [] .null) "k").2.2.1
     [("a", JsVal.num 1)] .null (by decide),
   (defineProperty_dispatch (JsVal.obj [] .null) "k").2.2.2⟩

/-- C5 (amended): on the fallback path, whenever
`defineProperty(target, name, v)` succeeds on an object target, the result
stores `resolvedValue v` under `name` — `v.value` when `v` was applied as a
full descriptor, `v` itself when it was shorthand — and a subsequent
`getOwnPropertyDescriptor` reports exactly the minimal descriptor
`{value: resolvedValue v}`; so the reported `.value` equals `v` precisely in
the shorthand case, not for a descriptor-like `v`. -/
theorem defineProperty_gOPD_roundtrip (town : List (String × JsVal)) (tproto : JsVal)
    (name : String) (v : JsVal) (t2 : JsVal)
    (h : defineProperty (.obj town tproto) name v = .ok t2) :
    t2 = .obj (setAssoc town name (resolvedValue v)) tproto
  ∧ getOwnPropertyDescriptor t2 name = .ok (.obj [("value", resolvedValue v)] .null) := by
  have hshape : t2 = .obj (setAssoc town name (resolvedValue v)) tproto := by
    by_cases hty : typeOf v = "object"
    · cases v with
      | null =>
        rw [show defineProperty (JsVal.obj town tproto) name JsVal.null =
          .error .typeError from rfl] at h
        exact Except.noConfusion h
      | obj down dproto =>
        cases hk : hasDescriptorKey (.obj down dproto) with
        | true =>
          have hdp : defineProperty (.obj town tproto) name (.obj down dproto) =
              .ok (.obj (setAssoc town name (getProp "value" (.obj down dproto))) tproto) := by
            simp [defineProperty, typeOf, isDescriptor_obj, hk, property, truthy,
              getPropE, jsSetProp]
          rw [hdp] at h
          have ht2 := (Except.ok.injEq _ _).mp h.symm
          rw [ht2]
          simp [resolvedValue, typeOf, hk]
        | false =>
          have hdp : defineProperty (.obj town tproto) name (.obj down dproto) =
              .ok (.obj (setAssoc town name (.obj down dproto)) tproto) := by
            simp [defineProperty, typeOf, isDescriptor_obj, hk, property, truthy,
              getPropE, jsSetProp, getProp, lookupAssoc]
          rw [hdp] at h
          have ht2 := (Except.ok.injEq _ _).mp h.symm
          rw [ht2]
          simp [resolvedValue, typeOf, hk]
      | undef => exact absurd hty (show ¬("undefined" = "object") by decide)
      | bool b => exact absurd hty (show ¬("boolean" = "object") by decide)
      | num n => exact absurd hty (show ¬("number" = "object") by decide)
      | str s => exact absurd hty (show ¬("string" = "object") by decide)
      | fn fown fproto => exact absurd hty (show ¬("function" = "object") by decide)
    · have hdp : defineProperty (.obj town tproto) name v =
          .ok (.obj (setAssoc town name v) tproto) := by
        simp only [defineProperty]
        rw [if_neg hty]
        rfl
      rw [hdp] at h
      have ht2 := (Except.ok.injEq _ _).mp h.symm
      rw [ht2]
      simp [resolvedValue, hty]
  refine ⟨hshape, ?_⟩
  rw [hshape]
  exact gOPD_after_set town tproto name (resolvedValue v)

/-- C5 witness: the round-trip at the concrete shorthand input `v = 5` — the
defined property is reported back with `.value` equal to `5`. -/
theorem defineProperty_gOPD_roundtrip_witness :
    getOwnPropertyDescriptor (JsVal.obj [("k", JsVal.num 5)] .null) "k" =
      .ok (JsVal.obj [("value", JsVal.num 5)] .null) :=
  (defineProperty_gOPD_roundtrip [] .null "k" (JsVal.num 5)
    (JsVal.obj [("k", JsVal.num 5)] .null) rfl).2

/-- C6: for an object prototype `P` — and for `P = null` under native
`Object.create` — `create(P)` returns a fresh object whose prototype link is
`P` (as reported by `getPrototypeOf` in every environment that can read the
link, i.e. with the native reader or `__proto__`) and which has no own
enumerable properties; and `create(P, {x: 1})` applies the descriptor map
before returning, so the created object carries `x` with reported descriptor
`{value: 1}`. -/
theorem create_spec (env : Env) (P : JsVal)
    (hAcc : env.nativeGetProto = true ∨ env.protoAccessor = true)
    (hP : (∃ own pr, P = JsVal.obj own pr) ∨ (P = JsVal.null ∧ env.nativeCreate = true)) :
    create env P .undef = .ok (.obj [] P)
  ∧ getPrototypeOf env (.obj [] P) = .ok P
  ∧ ownKeys (.obj [] P) = []
  ∧ create env P (.obj [("x", JsVal.num 1)] .null) = .ok (.obj [("x", JsVal.num 1)] P)
  ∧ getOwnPropertyDescriptor (.obj [("x", JsVal.num 1)] P) "x" =
      .ok (.obj [("value", JsVal.num 1)] .null) := by
  have hraw : createRaw env P = .ok (.obj [] P) := by
    rcases hP with ⟨own, pr, rfl⟩ | ⟨rfl, hc⟩
    · cases hnc : env.nativeCreate <;> simp [createRaw, hnc]
    · simp [createRaw, hc]
  have hgp : getPrototypeOf env (.obj [] P) = .ok P := by
    rcases hAcc with h | h <;> simp [getPrototypeOf, h]
  refine ⟨?_, hgp, rfl, ?_, rfl⟩
  · simp [create, hraw, truthy]
  · simp only [create, hraw]
    rfl

/-- C6 witness: `create` at a concrete environment (all capabilities present)
and the concrete object prototype `{q: 0}`. -/
theorem create_spec_witness :
    create ⟨true, true, true, true⟩ (JsVal.obj [("q", JsVal.num 0)] .null) .undef =
      .ok (JsVal.obj [] (JsVal.obj [("q", JsVal.num 0)] .null))
  ∧ getPrototypeOf ⟨true, true, true, true⟩
      (JsVal.obj [] (JsVal.obj [("q", JsVal.num 0)] .null)) =
      .ok (JsVal.obj [("q", JsVal.num 0)] .null)
  ∧ ownKeys (JsVal.obj [] (JsVal.obj [("q", JsVal.num 0)] .null)) = []
  ∧ create ⟨true, true, true, true⟩ (JsVal.obj [("q", JsVal.num 0)] .null)
      (JsVal.obj [("x", JsVal.num 1)] .null) =
      .ok (JsVal.obj [("x", JsVal.num 1)] (JsVal.obj [("q", JsVal.num 0)] .null))
  ∧ getOwnPropertyDescriptor
      (JsVal.obj [("x", JsVal.num 1)] (JsVal.obj [("q", JsVal.num 0)] .null)) "x" =
      .ok (JsVal.obj [("value", JsVal.num 1)] .null) :=
  create_spec ⟨true, true, true, true⟩ (JsVal.obj [("q", JsVal.num 0)] .null)
    (Or.inl rfl) (Or.inl ⟨[("q", JsVal.num 0)], .null, rfl⟩)

/-- C1 (amended): for every object target, `assign(target, ...sources)`
returns the target object — same prototype link, own properties updated in
place — after copying, left to right, every OWN enumerable property of each
source (each source is boxed by `Object()`; the `for…in` keys are filtered by
`source.hasOwnProperty`, so inherited enumerable keys are enumerated but not
copied): afterwards each key owned by some source holds the value from the
last source that owns it, and every other key of the target is untouched. -/
theorem assign_own_enumerable_last_wins (town : List (String × JsVal)) (tproto : JsVal)
    (sources : List JsVal) : ∃ town2,
    assign (.obj town tproto) sources = .ok (.obj town2 tproto)
  ∧ ∀ k, lookupAssoc town2 k =
      match lastSourceValue sources k with
      | some v => some v
      | none => lookupAssoc town k := by
  obtain ⟨a2, h1, h2⟩ := assignLoop_obj sources town tproto
  refine ⟨a2, ?_, h2⟩
  rw [show assign (.obj town tproto) sources =
    (match assignLoop (.obj town tproto) sources with
     | .error e => .error e
     | .ok final => .ok (toObject final)) from rfl]
  rw [h1]
  rfl

end ObjectOps
